import Mathlib

set_option maxRecDepth 8192

/-!
Verification of the Pumpkin server handler (`pumpkin_handler/__init__.py`).

The handler is a pattern-matching adapter: it classifies raw server stdout
lines, extracts a logging level and residual content, recognizes semantic
events (player joined/left, chat, server version, listening address, RCON
ready, stopping) with Python `re` fullmatch patterns, and formats outbound
messages as `tellraw` commands.

The embedding works over `List Char`.  Every Python regex used by the
handler is simple enough that its fullmatch semantics (greedy matching with
backtracking) is a deterministic function, which is spelled out here as a
recursive matcher; each matcher's doc comment records the regex it embeds
and why the translation captures greediness and backtracking exactly.

The host framework mcdreforged is an external dependency; the small part of
it the handler observes (the `Info` record with its `is_user` /
`is_from_server` properties, and the console-color stripping utility) is
modelled explicitly below, following the framework's published semantics.
-/

namespace PumpkinHandler

/-- Characters allowed in a player name: the regex class `[a-zA-Z0-9_]` of
`__player_name_regex`. -/
def isNameChar (c : Char) : Bool :=
  c.isAlphanum || c == '_'

/-- Word characters, the ASCII reading of the Python regex class `\w`, used
through `[\w.]` in `__rcon_started_regex`. -/
def isWordChar (c : Char) : Bool :=
  c.isAlphanum || c == '_'

/-- Whitespace of the Python regex class `\s` (ASCII range); its complement
`\S` appears in `__server_address_regex`. -/
def isPySpace (c : Char) : Bool :=
  c == ' ' || c == '\t' || c == '\n' || c == '\r' ||
    c == Char.ofNat 11 || c == Char.ofNat 12

/-- Decimal value of a string of ASCII digits, as Python `int` computes it in
`parse_server_address`. -/
def digitsToNat (s : List Char) : Nat :=
  s.foldl (fun n c => 10 * n + (c.toNat - 48)) 0

/-- Drops the literal `lit` from the front of `s`: the step a regex engine
performs on a literal fragment.  Returns the remainder, or `none` when `s`
does not start with `lit`. -/
def dropLit : List Char → List Char → Option (List Char)
  | [], s => some s
  | _, [] => none
  | a :: l, c :: s => if a == c then dropLit l s else none

/-- Holds when a string contains no newline: exactly the strings the Python
regex atom `.*` (without DOTALL) can consume to the end in a fullmatch. -/
def noNewline (s : List Char) : Bool :=
  s.all (fun c => c != '\n')

/-- Reads the optional numeric tag `(?: \((\d+)\))?` of the content-parsing
pattern together with the mandatory space that follows the optional group:
a space, an opening parenthesis, a greedy nonempty digit run, a closing
parenthesis, then a space; returns the remainder after that space.  The
greedy `\d+` cannot backtrack productively, since shrinking it would require
the literal closing parenthesis to match a digit. -/
def numericTag : List Char → Option (List Char)
  | ' ' :: '(' :: r =>
    match r.dropWhile Char.isDigit with
    | ')' :: ' ' :: m =>
      if (r.takeWhile Char.isDigit).isEmpty then none else some m
    | _ => none
  | _ => none

/-- Fullmatch of the content-parsing pattern
`\[(?P<logging>[^]]+)\](?: \((\d+)\))? (?P<content>.*)` returned by
`get_content_parsing_formatter`, yielding the groups `logging` and
`content`.  The greedy `[^]]+` is the run up to the first closing bracket
(it can contain no bracket, so backtracking never helps); the optional
group is tried first and, when its shape is present but the trailing `.*`
cannot finish (a newline in the residue), skipping the group fails as well
because the same newline remains; `.*` consumes the rest exactly when it is
newline-free. -/
def matchLevelLine : List Char → Option (List Char × List Char)
  | '[' :: rest =>
    let lvl := rest.takeWhile (fun c => c != ']')
    match rest.dropWhile (fun c => c != ']') with
    | ']' :: r =>
      if lvl.isEmpty then none
      else
        match numericTag r with
        | some m => if noNewline m then some (lvl, m) else none
        | none =>
          match r with
          | ' ' :: m => if noNewline m then some (lvl, m) else none
          | _ => none
    | _ => none
  | _ => none

/-- Source channel of an `Info` record: `InfoSource.SERVER` for server
stdout, `InfoSource.CONSOLE` for administrative console input (external
model: mcdreforged `InfoSource`). -/
inductive InfoSource
  | server
  | console
  deriving DecidableEq, Repr

/-- External model: the mcdreforged `Info` record as the handler observes
it — source channel, raw text, cleaned content, timestamp fields,
logging level and the player captured from a chat line.  Timestamp,
logging level and player are optional, `None` until set. -/
structure Info where
  source : InfoSource
  raw_content : List Char
  content : List Char
  hour : Option Nat
  min : Option Nat
  sec : Option Nat
  logging_level : Option (List Char)
  player : Option (List Char)
  deriving DecidableEq, Repr

/-- External model: mcdreforged `Info.is_from_server`, true exactly when the
source channel is the server. -/
def Info.is_from_server (i : Info) : Bool :=
  match i.source with
  | InfoSource.server => true
  | InfoSource.console => false

/-- External model: mcdreforged `Info.is_from_console`. -/
def Info.is_from_console (i : Info) : Bool :=
  match i.source with
  | InfoSource.server => false
  | InfoSource.console => true

/-- External model: mcdreforged `Info.is_player`, true when a player has
been attached to the record. -/
def Info.is_player (i : Info) : Bool :=
  i.player.isSome

/-- External model: mcdreforged `Info.is_user` — the record counts as
user-originated when it came from the console or carries a player. -/
def Info.is_user (i : Info) : Bool :=
  i.is_from_console || i.is_player

/-- Wall-clock time as delivered by Python `time.localtime(time.time())`;
`_content_parse` reads its hour, minute and second fields. -/
structure LocalTime where
  tm_hour : Nat
  tm_min : Nat
  tm_sec : Nat
  deriving DecidableEq, Repr

/-- The ordered content-parser list built by `__get_content_parsers` from
`get_content_parsing_formatter`: a single compiled pattern. -/
def get_content_parsers : List (List Char → Option (List Char × List Char)) :=
  [matchLevelLine]

/-- The first-match loop of `_content_parse`: parsers are tried strictly in
order and the first successful fullmatch wins. -/
def firstParse (ps : List (List Char → Option (List Char × List Char)))
    (s : List Char) : Option (List Char × List Char) :=
  match ps with
  | [] => none
  | p :: rest =>
    match p s with
    | some v => some v
    | none => firstParse rest s

/-- Embedding of `_content_parse`.  The wall-clock time of the call is the
explicit argument `t`, standing for `time.localtime(time.time())`.  When no
parser matches, the Python code raises `ValueError` before touching the
record, embedded as `Except.error` carrying the message text; on success it
overwrites the timestamp with `t` and stores the captured `logging` and
`content` groups. -/
def content_parse (t : LocalTime) (info : Info) : Except (List Char) Info :=
  match firstParse get_content_parsers info.content with
  | none => Except.error ("Unrecognized input: ".toList ++ info.content)
  | some (lvl, msg) =>
    Except.ok { info with
      hour := some t.tm_hour
      min := some t.tm_min
      sec := some t.tm_sec
      logging_level := some lvl
      content := msg }

/-- Fullmatch of a character class repeated between `lo` and `hi` times,
as in `[a-zA-Z0-9_]{3,16}`: each consumed character must satisfy `p`, `hi`
bounds the consumption, and the whole string must be consumed with the
minimum count reached (the greedy repetition with the fullmatch end anchor
admits exactly the strings of length `lo` to `hi` over the class). -/
def matchRepFull (p : Char → Bool) : Nat → Nat → List Char → Bool
  | lo, _, [] => lo == 0
  | lo, hi, c :: r => hi != 0 && p c && matchRepFull p (lo - 1) (hi - 1) r

/-- Embedding of `_verify_player_name`: fullmatch of `__player_name_regex`,
the pattern `[a-zA-Z0-9_]{3,16}`. -/
def verify_player_name (name : List Char) : Bool :=
  matchRepFull isNameChar 3 16 name

/-- Fullmatch of `(?P<name>[^ ]+)TAIL` for a literal `TAIL` beginning with a
space (the shape of `__player_joined_regex` and `__player_left_regex`): the
greedy `[^ ]+` is the run up to the first space — it can contain no space,
so backtracking would put a non-space character under the literal space and
always fails — and the remainder must equal the literal tail. -/
def matchNameBefore (tail : List Char) (s : List Char) : Option (List Char) :=
  let name := s.takeWhile (fun c => c != ' ')
  if name.isEmpty then none
  else if s.dropWhile (fun c => c != ' ') == tail then some name
  else none

/-- Fullmatch of `__player_joined_regex`, the pattern
`(?P<name>[^ ]+) joined the game`, yielding the `name` group. -/
def player_joined_match (s : List Char) : Option (List Char) :=
  matchNameBefore " joined the game".toList s

/-- Fullmatch of `__player_left_regex`, the pattern
`(?P<name>[^ ]+) left the game`, yielding the `name` group. -/
def player_left_match (s : List Char) : Option (List Char) :=
  matchNameBefore " left the game".toList s

/-- Fullmatch of the single player-message pattern of
`get_player_message_parsing_formatter`,
`\<chat\> (?P<name>[^:]+): (?P<message>.*)`: the literal prefix, then the
greedy `[^:]+` running up to the first colon (nonempty, colon-free, so
backtracking would put a non-colon character under the literal colon and
always fails), the literal colon and space, and a newline-free residue for
`.*`. -/
def chat_match (s : List Char) : Option (List Char × List Char) :=
  match dropLit "<chat> ".toList s with
  | some r =>
    let name := r.takeWhile (fun c => c != ':')
    match r.dropWhile (fun c => c != ':') with
    | ':' :: ' ' :: msg =>
      if name.isEmpty then none
      else if noNewline msg then some (name, msg) else none
    | _ => none
  | none => none

/-- Splits the tail of the server-version pattern,
`(?P<version>.+) \(Protocol (d+)\)` — note the source writes `d+`, a
literal run of the letter `d`, not `\d+`.  The greedy `.+` takes the
longest newline-free prefix such that the rest is the literal
` (Protocol `, a nonempty run of `d`, and a closing parenthesis at the very
end; scanning from the right finds it: the final character must be the
closing parenthesis, the `d`-run before it is maximal (a shorter run would
put a `d` under the literal space of ` (Protocol `), and what precedes must
end with the literal. -/
def versionTailSplit (s : List Char) : Option (List Char) :=
  match s.reverse with
  | ')' :: rev =>
    let ds := rev.takeWhile (fun c => c == 'd')
    if ds.isEmpty then none
    else
      match dropLit " (Protocol ".toList.reverse (rev.dropWhile (fun c => c == 'd')) with
      | some verRev =>
        if verRev.isEmpty then none
        else if noNewline verRev then some verRev.reverse else none
      | none => none
  | _ => none

/-- Fullmatch of `__server_version_regex`, the pattern
`Starting Pumpkin ([^ ]+) \([a-z0-9_]{8}\) for Minecraft (?P<version>.+)
\(Protocol (d+)\)`, yielding the `version` group.  The greedy `[^ ]+` is
the run up to the first space; the build identifier is exactly eight
characters from `[a-z0-9_]`; the tail is handled by `versionTailSplit`. -/
def server_version_match (s : List Char) : Option (List Char) :=
  match dropLit "Starting Pumpkin ".toList s with
  | some r1 =>
    let ver := r1.takeWhile (fun c => c != ' ')
    if ver.isEmpty then none
    else
      match dropLit " (".toList (r1.dropWhile (fun c => c != ' ')) with
      | some r2 =>
        let build := r2.take 8
        if build.length == 8 && build.all (fun c => c.isLower || c.isDigit || c == '_') then
          match dropLit ") for Minecraft ".toList (r2.drop 8) with
          | some r3 => versionTailSplit r3
          | none => none
        else none
      | none => none
  | none => none

/-- Fullmatch of `__server_address_regex`, the pattern
`You now can connect to the server; listening on (?P<ip>\S+):(?P<port>\d+)`,
yielding the `ip` and `port` groups.  After the literal, the port is the
maximal digit run at the very end (as `\d+` must reach the end, any valid
match places the port inside that run, and a proper suffix of the run is
preceded by a digit rather than the literal colon); a colon must precede
it and the nonempty remainder before the colon, matched by the greedy
`\S+`, must be whitespace-free. -/
def server_address_match (s : List Char) : Option (List Char × List Char) :=
  match dropLit "You now can connect to the server; listening on ".toList s with
  | some r =>
    let rev := r.reverse
    let ds := rev.takeWhile Char.isDigit
    if ds.isEmpty then none
    else
      match rev.dropWhile Char.isDigit with
      | ':' :: ipRev =>
        if ipRev.isEmpty then none
        else if ipRev.any isPySpace then none
        else some (ipRev.reverse, ds.reverse)
      | _ => none
  | none => none

/-- Fullmatch test of `__rcon_started_regex`, the pattern
`RCON running on [\w.]+:\d+`: the literal prefix, a greedy nonempty run
over `[\w.]` up to the colon (the class excludes the colon, so backtracking
always fails), and a nonempty all-digit remainder. -/
def rcon_started_match (s : List Char) : Bool :=
  match dropLit "RCON running on ".toList s with
  | some r =>
    let host := r.takeWhile (fun c => isWordChar c || c == '.')
    match r.dropWhile (fun c => isWordChar c || c == '.') with
    | ':' :: r2 => !host.isEmpty && !r2.isEmpty && r2.all Char.isDigit
    | _ => false
  | none => false

/-- Fullmatch test of `__server_stopping_regex`, the literal pattern
`Stopping the server`. -/
def server_stopping_match (s : List Char) : Bool :=
  s == "Stopping the server".toList

/-- Embedding of `parse_player_joined`, in state-passing form: the result is
paired with the record the call leaves behind.  The body only reads the
record — non-user source, fullmatch of the joined pattern, name
validation — and returns the captured name or `None`. -/
def parse_player_joined (info : Info) : Option (List Char) × Info :=
  if info.is_user then (none, info)
  else
    match player_joined_match info.content with
    | some name =>
      if verify_player_name name then (some name, info) else (none, info)
    | none => (none, info)

/-- Embedding of `parse_player_left`, in state-passing form. -/
def parse_player_left (info : Info) : Option (List Char) × Info :=
  if info.is_user then (none, info)
  else
    match player_left_match info.content with
    | some name =>
      if verify_player_name name then (some name, info) else (none, info)
    | none => (none, info)

/-- Embedding of `parse_server_version`, in state-passing form. -/
def parse_server_version (info : Info) : Option (List Char) × Info :=
  if info.is_user then (none, info)
  else
    match server_version_match info.content with
    | some v => (some v, info)
    | none => (none, info)

/-- Embedding of `parse_server_address`, in state-passing form: the captured
port digits are converted with Python `int`. -/
def parse_server_address (info : Info) : Option (List Char × Nat) × Info :=
  if info.is_user then (none, info)
  else
    match server_address_match info.content with
    | some (ip, port) => (some (ip, digitsToNat port), info)
    | none => (none, info)

/-- Embedding of `test_server_startup_done`, in state-passing form: true
exactly when the record is from the server and the address pattern
fullmatches its content. -/
def test_server_startup_done (info : Info) : Bool × Info :=
  (info.is_from_server && (server_address_match info.content).isSome, info)

/-- Embedding of `test_rcon_started`, in state-passing form. -/
def test_rcon_started (info : Info) : Bool × Info :=
  (info.is_from_server && rcon_started_match info.content, info)

/-- Embedding of `test_server_stopping`, in state-passing form. -/
def test_server_stopping (info : Info) : Bool × Info :=
  (info.is_from_server && server_stopping_match info.content, info)

/-- Lowercase hexadecimal digit, as Python renders `\uXXXX` escapes. -/
def hexDigit (n : Nat) : Char :=
  if n < 10 then Char.ofNat (48 + n) else Char.ofNat (87 + n)

/-- Escaping of one character by Python
`json.dumps(..., ensure_ascii=False)`: the quote and backslash are
backslash-escaped, the common control characters use their short escapes,
other control characters below 32 use `\u00xx`, and everything else —
non-ASCII included — passes through unchanged. -/
def jsonEscapeChar (c : Char) : List Char :=
  if c == '"' then ['\\', '"']
  else if c == '\\' then ['\\', '\\']
  else if c == '\n' then ['\\', 'n']
  else if c == '\r' then ['\\', 'r']
  else if c == '\t' then ['\\', 't']
  else if c == Char.ofNat 8 then ['\\', 'b']
  else if c == Char.ofNat 12 then ['\\', 'f']
  else if c.toNat < 32 then
    ['\\', 'u', '0', '0', hexDigit (c.toNat / 16), hexDigit (c.toNat % 16)]
  else [c]

/-- The `MessageText` union the handler formats: either a plain string, or a
rich `RTextBase` value (external mcdreforged type), abstracted here by the
JSON string its `to_json_str` method produces. -/
inductive MessageText
  | plain (s : List Char)
  | rich (json : List Char)
  deriving DecidableEq, Repr

/-- Embedding of `format_message`: a rich value is serialized by its own
`to_json_str`; a plain string is serialized by
`json.dumps(str(message), ensure_ascii=False, separators=(',', ':'))`,
which for a string value is a double-quoted literal with each character
escaped by `jsonEscapeChar` and no added whitespace. -/
def format_message : MessageText → List Char
  | MessageText.rich j => j
  | MessageText.plain s => '"' :: s.flatMap jsonEscapeChar ++ ['"']

/-- Positional substitution of Python `str.format` on a template whose only
brace occurrences are `\x7b\x7d` holes: each hole is replaced by the next
argument in order, other characters are copied. -/
def substHoles : List Char → List (List Char) → List Char
  | [], _ => []
  | c :: r, [] => c :: substHoles r []
  | [c], _ :: _ => [c]
  | c :: c2 :: r2, a :: rest =>
    if c == Char.ofNat 123 && c2 == Char.ofNat 125 then a ++ substHoles r2 rest
    else c :: substHoles (c2 :: r2) (a :: rest)

/-- Embedding of `get_send_message_command`:
`'tellraw \x7b\x7d \x7b\x7d'.format(target, self.format_message(message))`. -/
def get_send_message_command (target : List Char) (message : MessageText) :
    List Char :=
  substHoles "tellraw \x7b\x7d \x7b\x7d".toList [target, format_message message]

/-- Embedding of `get_broadcast_message_command`: a send to target `@a`. -/
def get_broadcast_message_command (message : MessageText) : List Char :=
  get_send_message_command "@a".toList message

/-- Embedding of `get_stop_command`. -/
def get_stop_command : List Char :=
  "stop".toList

/-- Scanner for the model of the external utility
`string_utils.clean_console_color_code`, which removes console color
sequences of the form ESC, opening bracket, parameter characters (digits
and semicolons), terminating `m`, and keeps malformed sequences verbatim.
The second argument is the scanner state: `none` outside a sequence,
`some buf` when an ESC has been read and `buf` holds the valid sequence
characters read since (none of which can be another ESC, so on a malformed
sequence they are emitted as ordinary text and only the breaking character
is re-examined).  On text containing no ESC character the scan is the
identity, which is the only property relied on below. -/
def cleanColorAux : List Char → Option (List Char) → List Char
  | [], none => []
  | [], some buf => Char.ofNat 27 :: buf
  | c :: r, none =>
    if c == Char.ofNat 27 then cleanColorAux r (some [])
    else c :: cleanColorAux r none
  | c :: r, some [] =>
    if c == '[' then cleanColorAux r (some ['['])
    else if c == Char.ofNat 27 then Char.ofNat 27 :: cleanColorAux r (some [])
    else Char.ofNat 27 :: c :: cleanColorAux r none
  | c :: r, some (b :: bs) =>
    if c == 'm' then cleanColorAux r none
    else if c.isDigit || c == ';' then cleanColorAux r (some (b :: bs ++ [c]))
    else if c == Char.ofNat 27 then
      (Char.ofNat 27 :: b :: bs) ++ cleanColorAux r (some [])
    else (Char.ofNat 27 :: b :: bs) ++ c :: cleanColorAux r none

/-- Model of the external utility `string_utils.clean_console_color_code`. -/
def clean_console_color_code (s : List Char) : List Char :=
  cleanColorAux s none

/-- Embedding of `_get_server_stdout_raw_result`: a fresh server-sourced
record whose content is the color-cleaned text and whose timestamp fields
are zeroed (the `TypeError` on non-string input is ruled out by typing). -/
def get_server_stdout_raw_result (text : List Char) : Info :=
  { source := InfoSource.server
    raw_content := text
    content := clean_console_color_code text
    hour := some 0
    min := some 0
    sec := some 0
    logging_level := none
    player := none }

/-- The ordered player-message parser list built by
`__get_player_message_parsers` from `get_player_message_parsing_formatter`:
a single compiled chat pattern. -/
def get_player_message_parsers :
    List (List Char → Option (List Char × List Char)) :=
  [chat_match]

/-- The player-message loop of `parse_server_stdout`: parsers are tried in
order; the first one that fullmatches with a valid player name sets the
record's player and replaces its content with the message, and the loop
stops; a match with an invalid name is skipped. -/
def playerMsgLoop (ps : List (List Char → Option (List Char × List Char)))
    (info : Info) : Info :=
  match ps with
  | [] => info
  | p :: rest =>
    match p info.content with
    | some (name, msg) =>
      if verify_player_name name then
        { info with player := some name, content := msg }
      else playerMsgLoop rest info
    | none => playerMsgLoop rest info

/-- Embedding of `parse_server_stdout`: the inherited framework behaviour
builds the raw record from the text and runs `_content_parse` on it (whose
failure propagates), then the handler's override runs the player-message
loop on the parsed record. -/
def parse_server_stdout (t : LocalTime) (text : List Char) :
    Except (List Char) Info :=
  match content_parse t (get_server_stdout_raw_result text) with
  | Except.error e => Except.error e
  | Except.ok result => Except.ok (playerMsgLoop get_player_message_parsers result)

example : format_message (MessageText.plain "hi".toList) = "\"hi\"".toList := by
  decide

example : get_broadcast_message_command (MessageText.plain "hi".toList)
    = "tellraw @a \"hi\"".toList := by decide

example :
    parse_server_stdout ⟨12, 34, 56⟩ "[INFO] <chat> Alice: hello world".toList
    = Except.ok
        { source := InfoSource.server
          raw_content := "[INFO] <chat> Alice: hello world".toList
          content := "hello world".toList
          hour := some 12
          min := some 34
          sec := some 56
          logging_level := some "INFO".toList
          player := some "Alice".toList } := rfl

example : matchLevelLine "[INFO] (1) Player joined".toList
    = some ("INFO".toList, "Player joined".toList) := by decide

example : matchLevelLine "[WARN] hello".toList
    = some ("WARN".toList, "hello".toList) := by decide

example : matchLevelLine "[INFO] (12)".toList
    = some ("INFO".toList, "(12)".toList) := by decide

example : matchLevelLine "no brackets".toList = none := by decide

example : verify_player_name "Steve".toList = true := by decide

example : player_joined_match "Steve joined the game".toList
    = some "Steve".toList := by decide

example : chat_match "<chat> Alice: hello world".toList
    = some ("Alice".toList, "hello world".toList) := by decide

example : server_address_match
    "You now can connect to the server; listening on 0.0.0.0:25565".toList
    = some ("0.0.0.0".toList, "25565".toList) := by decide

example : server_version_match
    "Starting Pumpkin 1.0.0 (abcd1234) for Minecraft 1.21.4 (Protocol ddd)".toList
    = some "1.21.4".toList := by decide

example : server_version_match
    "Starting Pumpkin 1.0.0 (abcd1234) for Minecraft 1.21.4 (Protocol 774)".toList
    = none := by decide

example : rcon_started_match "RCON running on 0.0.0.0:25575".toList = true := by
  decide

/-! Helper lemmas about the list combinators the matchers are built from. -/

/-- Greedy class matching stops at the first failing character. -/
theorem takeWhile_middle (p : Char → Bool) (l : List Char) (a : Char)
    (r : List Char) (hl : ∀ c ∈ l, p c = true) (ha : p a = false) :
    (l ++ a :: r).takeWhile p = l := by
  induction l with
  | nil => simp [List.takeWhile_cons, ha]
  | cons x xs ih =>
    have hx : p x = true := hl x (List.mem_cons_self x xs)
    simp only [List.cons_append, List.takeWhile_cons, hx, if_true]
    have := ih (fun c hc => hl c (List.mem_cons_of_mem x hc))
    simp [this]

/-- Companion of `takeWhile_middle` for the residue. -/
theorem dropWhile_middle (p : Char → Bool) (l : List Char) (a : Char)
    (r : List Char) (hl : ∀ c ∈ l, p c = true) (ha : p a = false) :
    (l ++ a :: r).dropWhile p = a :: r := by
  induction l with
  | nil => simp [List.dropWhile_cons, ha]
  | cons x xs ih =>
    have hx : p x = true := hl x (List.mem_cons_self x xs)
    simp only [List.cons_append, List.dropWhile_cons, hx, if_true]
    exact ih (fun c hc => hl c (List.mem_cons_of_mem x hc))

/-- A literal fragment consumes exactly itself. -/
theorem dropLit_self (lit r : List Char) : dropLit lit (lit ++ r) = some r := by
  induction lit with
  | nil => simp [dropLit]
  | cons a l ih => simp [dropLit, ih]

/-- Characters of a list avoiding `a` satisfy the bne predicate. -/
theorem allNeOfNotMem {a : Char} {l : List Char} (h : a ∉ l) :
    ∀ c ∈ l, (c != a) = true := by
  intro c hc
  simp only [bne_iff_ne, ne_eq]
  exact fun e => h (e ▸ hc)

/-- A newline-free list passes the `noNewline` test. -/
theorem noNewline_of_not_mem {m : List Char} (h : Char.ofNat 10 ∉ m) :
    noNewline m = true := by
  simp only [noNewline, List.all_eq_true]
  exact allNeOfNotMem h

/-- A nonempty list fails the `isEmpty` test. -/
theorem isEmpty_false_of_ne {l : List Char} (h : l ≠ []) :
    l.isEmpty = false := by
  cases l with
  | nil => exact absurd rfl h
  | cons _ _ => rfl

/-- The color-code scan is the identity on text without the ESC character,
which is the only behaviour of the external cleaning utility the handler
relies on for ordinary log lines. -/
theorem cleanColorAux_none_id (s : List Char) (h : Char.ofNat 27 ∉ s) :
    cleanColorAux s none = s := by
  induction s with
  | nil => rfl
  | cons c r ih =>
    have hc : (c == Char.ofNat 27) = false := by
      simp only [List.mem_cons, not_or] at h
      simp only [beq_eq_false_iff_ne, ne_eq]
      exact fun e => h.1 e.symm
    simp only [cleanColorAux, hc, Bool.false_eq_true, if_false, List.cons.injEq,
      true_and]
    exact ih (fun hr => h (List.mem_cons_of_mem c hr))

/-- Identity of the modelled cleaning utility on ESC-free text. -/
theorem clean_id {s : List Char} (h : Char.ofNat 27 ∉ s) :
    clean_console_color_code s = s :=
  cleanColorAux_none_id s h

/-- The content pattern on a plain `[LEVEL] MESSAGE` line: when the residual
message does not itself begin with a numeric tag, the optional group is
skipped and the groups are the level and the message. -/
theorem matchLevelLine_plain (lvl m : List Char) (h1 : lvl ≠ [])
    (h2 : ']' ∉ lvl) (h3 : Char.ofNat 10 ∉ m)
    (h4 : numericTag (' ' :: m) = none) :
    matchLevelLine ('[' :: (lvl ++ ']' :: ' ' :: m)) = some (lvl, m) := by
  have ht := takeWhile_middle (fun c => c != ']') lvl ']' (' ' :: m)
    (allNeOfNotMem h2) (by decide)
  have hd := dropWhile_middle (fun c => c != ']') lvl ']' (' ' :: m)
    (allNeOfNotMem h2) (by decide)
  simp only [matchLevelLine, ht, hd, isEmpty_false_of_ne h1, Bool.false_eq_true,
    if_false, h4, noNewline_of_not_mem h3, if_true]

/-- The content pattern on a tagged `[LEVEL] (N) MESSAGE` line: the optional
numeric-tag group is consumed and the groups are the level and the message
after the tag. -/
theorem matchLevelLine_tagged (lvl ds m : List Char) (h1 : lvl ≠ [])
    (h2 : ']' ∉ lvl) (hds1 : ds ≠ []) (hds2 : ∀ c ∈ ds, c.isDigit = true)
    (h3 : Char.ofNat 10 ∉ m) :
    matchLevelLine ('[' :: (lvl ++ ']' :: ' ' :: '(' :: (ds ++ ')' :: ' ' :: m)))
      = some (lvl, m) := by
  have ht := takeWhile_middle (fun c => c != ']') lvl ']'
    (' ' :: '(' :: (ds ++ ')' :: ' ' :: m)) (allNeOfNotMem h2) (by decide)
  have hd := dropWhile_middle (fun c => c != ']') lvl ']'
    (' ' :: '(' :: (ds ++ ')' :: ' ' :: m)) (allNeOfNotMem h2) (by decide)
  have htag : numericTag (' ' :: '(' :: (ds ++ ')' :: ' ' :: m)) = some m := by
    have hdd := dropWhile_middle Char.isDigit ds ')' (' ' :: m) hds2 (by decide)
    have htt := takeWhile_middle Char.isDigit ds ')' (' ' :: m) hds2 (by decide)
    simp only [numericTag, hdd, htt, isEmpty_false_of_ne hds1,
      Bool.false_eq_true, if_false]
  simp only [matchLevelLine, ht, hd, isEmpty_false_of_ne h1, Bool.false_eq_true,
    if_false, htag, noNewline_of_not_mem h3, if_true]

/-- The chat pattern on a shaped `<chat> NAME: MESSAGE` content. -/
theorem chat_match_shape (name msg : List Char) (hname : name ≠ [])
    (hcol : ':' ∉ name) (hnl : Char.ofNat 10 ∉ msg) :
    chat_match ("<chat> ".toList ++ (name ++ ':' :: ' ' :: msg))
      = some (name, msg) := by
  have ht := takeWhile_middle (fun c => c != ':') name ':' (' ' :: msg)
    (allNeOfNotMem hcol) (by decide)
  have hd := dropWhile_middle (fun c => c != ':') name ':' (' ' :: msg)
    (allNeOfNotMem hcol) (by decide)
  simp only [chat_match, dropLit_self, ht, hd, isEmpty_false_of_ne hname,
    Bool.false_eq_true, if_false, noNewline_of_not_mem hnl, if_true]

/-! Claims. -/

/-- C1.  On a server-channel record whose content has the shape
`[LEVEL] MESSAGE` — where the level is a nonempty bracket-free token, the
message is newline-free and does not itself begin with a numeric tag — or
the shape `[LEVEL] (N) MESSAGE` with a nonempty digit tag, `_content_parse`
succeeds, stores the level as `logging_level` and exactly the message as
`content`, and overwrites the record's hour, minute and second with the
wall-clock time `t` of the call (the argument standing for
`time.localtime(time.time())`), not with anything read from the text. -/
theorem content_parse_level_line (t : LocalTime) (info : Info)
    (lvl m : List Char) (_hsrc : info.source = InfoSource.server)
    (h1 : lvl ≠ []) (h2 : ']' ∉ lvl) (h3 : Char.ofNat 10 ∉ m) :
    (info.content = '[' :: (lvl ++ ']' :: ' ' :: m) →
      numericTag (' ' :: m) = none →
      content_parse t info = Except.ok { info with
        hour := some t.tm_hour
        min := some t.tm_min
        sec := some t.tm_sec
        logging_level := some lvl
        content := m }) ∧
    (∀ ds : List Char, ds ≠ [] → (∀ c ∈ ds, c.isDigit = true) →
      info.content = '[' :: (lvl ++ ']' :: ' ' :: '(' :: (ds ++ ')' :: ' ' :: m)) →
      content_parse t info = Except.ok { info with
        hour := some t.tm_hour
        min := some t.tm_min
        sec := some t.tm_sec
        logging_level := some lvl
        content := m }) := by
  constructor
  · intro hc htag
    simp only [content_parse, get_content_parsers, firstParse, hc,
      matchLevelLine_plain lvl m h1 h2 h3 htag]
  · intro ds hds1 hds2 hc
    simp only [content_parse, get_content_parsers, firstParse, hc,
      matchLevelLine_tagged lvl ds m h1 h2 hds1 hds2 h3]

/-- Witness for C1: a concrete plain line and a concrete tagged line. -/
theorem content_parse_level_line_witness :
    (({ source := InfoSource.server
        raw_content := "[INFO] hello".toList
        content := "[INFO] hello".toList
        hour := some 0
        min := some 0
        sec := some 0
        logging_level := none
        player := none } : Info).source = InfoSource.server ∧
      ("INFO".toList : List Char) ≠ [] ∧ ']' ∉ "INFO".toList ∧
      Char.ofNat 10 ∉ "hello".toList) ∧
    content_parse ⟨7, 8, 9⟩
      { source := InfoSource.server
        raw_content := "[INFO] hello".toList
        content := "[INFO] hello".toList
        hour := some 0
        min := some 0
        sec := some 0
        logging_level := none
        player := none } = Except.ok
      { source := InfoSource.server
        raw_content := "[INFO] hello".toList
        content := "hello".toList
        hour := some 7
        min := some 8
        sec := some 9
        logging_level := some "INFO".toList
        player := none } ∧
    content_parse ⟨7, 8, 9⟩
      { source := InfoSource.server
        raw_content := "[INFO] (12) hello".toList
        content := "[INFO] (12) hello".toList
        hour := some 0
        min := some 0
        sec := some 0
        logging_level := none
        player := none } = Except.ok
      { source := InfoSource.server
        raw_content := "[INFO] (12) hello".toList
        content := "hello".toList
        hour := some 7
        min := some 8
        sec := some 9
        logging_level := some "INFO".toList
        player := none } := by
  refine ⟨⟨rfl, by decide, by decide, by decide⟩, ?_, ?_⟩
  · exact (content_parse_level_line ⟨7, 8, 9⟩ _ "INFO".toList "hello".toList
      rfl (by decide) (by decide) (by decide)).1 (by decide) (by decide)
  · exact (content_parse_level_line ⟨7, 8, 9⟩ _ "INFO".toList "hello".toList
      rfl (by decide) (by decide) (by decide)).2 "12".toList (by decide)
      (by decide) (by decide)

/-- C2.  On a record whose content matches none of the configured
content-parsing patterns, `_content_parse` signals the failure — the raised
`ValueError`, embedded as `Except.error` — whose message carries the
offending text, and no record at all is produced (the Python code raises
before its first assignment, so the record is left untouched and no
partially-updated record can propagate). -/
theorem content_parse_unrecognized (t : LocalTime) (info : Info)
    (h : firstParse get_content_parsers info.content = none) :
    content_parse t info
      = Except.error ("Unrecognized input: ".toList ++ info.content) := by
  simp only [content_parse, h]

/-- Witness for C2: a line in no known log shape. -/
theorem content_parse_unrecognized_witness :
    firstParse get_content_parsers
      ("no log shape here" : String).toList = none ∧
    content_parse ⟨1, 2, 3⟩
      { source := InfoSource.server
        raw_content := "no log shape here".toList
        content := "no log shape here".toList
        hour := some 0
        min := some 0
        sec := some 0
        logging_level := none
        player := none }
      = Except.error ("Unrecognized input: ".toList ++ "no log shape here".toList) :=
  ⟨by decide, content_parse_unrecognized ⟨1, 2, 3⟩ _ (by decide)⟩

/-- Characterization of the bounded class repetition. -/
theorem matchRepFull_iff (p : Char → Bool) :
    ∀ (lo hi : Nat) (s : List Char),
      matchRepFull p lo hi s = true ↔
        (lo ≤ s.length ∧ s.length ≤ hi ∧ ∀ c ∈ s, p c = true) := by
  intro lo hi s
  induction s generalizing lo hi with
  | nil =>
    simp only [matchRepFull, List.length_nil, List.not_mem_nil, beq_iff_eq]
    constructor
    · intro h
      refine ⟨by omega, by omega, by simp⟩
    · rintro ⟨h1, -, -⟩
      omega
  | cons c r ih =>
    simp only [matchRepFull, Bool.and_eq_true, bne_iff_ne, ne_eq,
      List.length_cons, List.mem_cons]
    constructor
    · rintro ⟨⟨hhi, hpc⟩, hrec⟩
      rcases (ih (lo - 1) (hi - 1)).mp hrec with ⟨ha, hb, hall⟩
      refine ⟨by omega, by omega, ?_⟩
      intro x hx
      rcases hx with hx | hx
      · exact hx ▸ hpc
      · exact hall x hx
    · rintro ⟨ha, hb, hall⟩
      refine ⟨⟨by omega, hall c (Or.inl rfl)⟩, ?_⟩
      exact (ih (lo - 1) (hi - 1)).mpr ⟨by omega, by omega,
        fun x hx => hall x (Or.inr hx)⟩

/-- C5.  `_verify_player_name` is total and accepts exactly the strings of 3
to 16 characters drawn from letters, digits and underscore (a full-string
match of the `[A-Za-z0-9_]{3,16}` pattern); in particular it rejects the
two-character `ab`, a 17-character string, and `name!`. -/
theorem verify_player_name_spec :
    (∀ s : List Char, verify_player_name s = true ↔
      (3 ≤ s.length ∧ s.length ≤ 16 ∧ ∀ c ∈ s, isNameChar c = true)) ∧
    verify_player_name "ab".toList = false ∧
    verify_player_name "aaaaaaaaaaaaaaaaa".toList = false ∧
    verify_player_name "name!".toList = false ∧
    verify_player_name "Steve".toList = true := by
  refine ⟨fun s => matchRepFull_iff isNameChar 3 16 s, ?_, ?_, ?_, ?_⟩ <;> decide

/-- C3.  The server-version pattern contains the literal `(d+)` where the
protocol number was plainly meant to be digits (`\d+`): on the line
`Starting Pumpkin 1.0.0 (abcd1234) for Minecraft 1.21.4 (Protocol 774)`,
whose protocol field is the decimal number the claim (and the running
server) produces, `parse_server_version` returns no match, while replacing
the decimal number by the literal letters `ddd` makes it return `1.21.4` —
direct evidence that the code, not the claim, is off. -/
theorem server_version_protocol_typo :
    (parse_server_version
      { source := InfoSource.server
        raw_content := "Starting Pumpkin 1.0.0 (abcd1234) for Minecraft 1.21.4 (Protocol 774)".toList
        content := "Starting Pumpkin 1.0.0 (abcd1234) for Minecraft 1.21.4 (Protocol 774)".toList
        hour := some 0
        min := some 0
        sec := some 0
        logging_level := some "INFO".toList
        player := none }).1 = none ∧
    (parse_server_version
      { source := InfoSource.server
        raw_content := "Starting Pumpkin 1.0.0 (abcd1234) for Minecraft 1.21.4 (Protocol ddd)".toList
        content := "Starting Pumpkin 1.0.0 (abcd1234) for Minecraft 1.21.4 (Protocol ddd)".toList
        hour := some 0
        min := some 0
        sec := some 0
        logging_level := some "INFO".toList
        player := none }).1 = some "1.21.4".toList := by
  refine ⟨?_, ?_⟩ <;> decide

/-- C4, counterexample.  The claimed equivalence between
`test_server_startup_done` and `parse_server_address` quantifies over every
record, but the two guards differ: the test checks `is_from_server` while
the extractor checks `not is_user`, and a server-sourced record that
carries a player counts as a user record.  The record below — produced by
`parse_server_stdout` itself from a chat line whose message is the address
text, so it is reachable — makes the test true while the extractor returns
no match. -/
theorem startup_done_address_mismatch :
    parse_server_stdout ⟨1, 2, 3⟩
      "[INFO] <chat> Alice: You now can connect to the server; listening on 0.0.0.0:25565".toList
      = Except.ok
      { source := InfoSource.server
        raw_content := "[INFO] <chat> Alice: You now can connect to the server; listening on 0.0.0.0:25565".toList
        content := "You now can connect to the server; listening on 0.0.0.0:25565".toList
        hour := some 1
        min := some 2
        sec := some 3
        logging_level := some "INFO".toList
        player := some "Alice".toList } ∧
    (test_server_startup_done
      { source := InfoSource.server
        raw_content := "[INFO] <chat> Alice: You now can connect to the server; listening on 0.0.0.0:25565".toList
        content := "You now can connect to the server; listening on 0.0.0.0:25565".toList
        hour := some 1
        min := some 2
        sec := some 3
        logging_level := some "INFO".toList
        player := some "Alice".toList }).1 = true ∧
    (parse_server_address
      { source := InfoSource.server
        raw_content := "[INFO] <chat> Alice: You now can connect to the server; listening on 0.0.0.0:25565".toList
        content := "You now can connect to the server; listening on 0.0.0.0:25565".toList
        hour := some 1
        min := some 2
        sec := some 3
        logging_level := some "INFO".toList
        player := some "Alice".toList }).1 = none := by
  refine ⟨rfl, by decide, by decide⟩

/-- C4, amended.  For every record that carries no player — every record on
which the two guards agree — `test_server_startup_done` is true exactly
when `parse_server_address` yields an address; and on a server record with
content `You now can connect to the server; listening on 0.0.0.0:25565`
the extractor yields the host `0.0.0.0` with the port converted to the
integer 25565, and the test is true. -/
theorem startup_done_iff_address :
    (∀ info : Info, info.player = none →
      ((test_server_startup_done info).1 = true ↔
        (parse_server_address info).1 ≠ none)) ∧
    (parse_server_address
      { source := InfoSource.server
        raw_content := "You now can connect to the server; listening on 0.0.0.0:25565".toList
        content := "You now can connect to the server; listening on 0.0.0.0:25565".toList
        hour := some 0
        min := some 0
        sec := some 0
        logging_level := some "INFO".toList
        player := none }).1 = some ("0.0.0.0".toList, 25565) ∧
    (test_server_startup_done
      { source := InfoSource.server
        raw_content := "You now can connect to the server; listening on 0.0.0.0:25565".toList
        content := "You now can connect to the server; listening on 0.0.0.0:25565".toList
        hour := some 0
        min := some 0
        sec := some 0
        logging_level := some "INFO".toList
        player := none }).1 = true := by
  refine ⟨?_, by decide, by decide⟩
  intro info hp
  obtain ⟨src, rc, ct, hh, mm, ss, ll, pl⟩ := info
  simp only at hp
  subst hp
  cases src with
  | server =>
    simp only [test_server_startup_done, parse_server_address, Info.is_user,
      Info.is_from_console, Info.is_player, Info.is_from_server,
      Option.isSome_none, Bool.or_false, Bool.true_and, Bool.false_eq_true,
      if_false]
    cases h : server_address_match ct with
    | none => simp [h]
    | some p =>
      obtain ⟨ip, port⟩ := p
      simp [h]
  | console =>
    simp [test_server_startup_done, parse_server_address, Info.is_user,
      Info.is_from_console, Info.is_player, Info.is_from_server]

/-- Witness for C4 (amended): the equivalence applied to the concrete
address record. -/
theorem startup_done_iff_address_witness :
    (({ source := InfoSource.server
        raw_content := "You now can connect to the server; listening on 0.0.0.0:25565".toList
        content := "You now can connect to the server; listening on 0.0.0.0:25565".toList
        hour := some 0
        min := some 0
        sec := some 0
        logging_level := some "INFO".toList
        player := none } : Info).player = none) ∧
    ((test_server_startup_done
      { source := InfoSource.server
        raw_content := "You now can connect to the server; listening on 0.0.0.0:25565".toList
        content := "You now can connect to the server; listening on 0.0.0.0:25565".toList
        hour := some 0
        min := some 0
        sec := some 0
        logging_level := some "INFO".toList
        player := none }).1 = true ↔
      (parse_server_address
      { source := InfoSource.server
        raw_content := "You now can connect to the server; listening on 0.0.0.0:25565".toList
        content := "You now can connect to the server; listening on 0.0.0.0:25565".toList
        hour := some 0
        min := some 0
        sec := some 0
        logging_level := some "INFO".toList
        player := none }).1 ≠ none) :=
  ⟨rfl, startup_done_iff_address.1 _ rfl⟩

/-- C6.  On a server record with content `Steve joined the game` the joined
extractor yields `Steve`; on `S joined the game` the extracted name fails
validation and the extractor yields no match; and in general a fullmatch
whose name fails validation is silently reported as a non-match (the
function returns `None` rather than signalling an error). -/
theorem player_joined_cases :
    (parse_player_joined
      { source := InfoSource.server
        raw_content := "Steve joined the game".toList
        content := "Steve joined the game".toList
        hour := some 0
        min := some 0
        sec := some 0
        logging_level := some "INFO".toList
        player := none }).1 = some "Steve".toList ∧
    (parse_player_joined
      { source := InfoSource.server
        raw_content := "S joined the game".toList
        content := "S joined the game".toList
        hour := some 0
        min := some 0
        sec := some 0
        logging_level := some "INFO".toList
        player := none }).1 = none ∧
    (∀ (info : Info) (name : List Char), info.is_user = false →
      player_joined_match info.content = some name →
      verify_player_name name = false →
      (parse_player_joined info).1 = none) := by
  refine ⟨by decide, by decide, ?_⟩
  intro info name h1 h2 h3
  simp only [parse_player_joined, h1, Bool.false_eq_true, if_false, h2, h3]

/-- Witness for C6: the general non-match clause applied to the
one-character name. -/
theorem player_joined_cases_witness :
    (({ source := InfoSource.server
        raw_content := "S joined the game".toList
        content := "S joined the game".toList
        hour := some 0
        min := some 0
        sec := some 0
        logging_level := some "INFO".toList
        player := none } : Info).is_user = false ∧
      player_joined_match "S joined the game".toList = some "S".toList ∧
      verify_player_name "S".toList = false) ∧
    (parse_player_joined
      { source := InfoSource.server
        raw_content := "S joined the game".toList
        content := "S joined the game".toList
        hour := some 0
        min := some 0
        sec := some 0
        logging_level := some "INFO".toList
        player := none }).1 = none :=
  ⟨⟨by decide, by decide, by decide⟩,
    player_joined_cases.2.2 _ "S".toList (by decide) (by decide) (by decide)⟩

/-- C7.  On a server stdout line whose parsed content has the full shape
`<chat> NAME: MESSAGE` (the level prefix is consumed first; the name is
nonempty and colon-free; name and message are newline-free; no part
contains the ESC character, so the external color cleaning is the
identity): when the name passes validation, `parse_server_stdout` sets the
record's player to the name and replaces its content with the bare message;
when the name fails validation the player stays unset and the content keeps
the whole `<chat> ...` text. -/
theorem parse_server_stdout_chat (t : LocalTime) (lvl name msg : List Char)
    (hlvl : lvl ≠ []) (hrb : ']' ∉ lvl) (hesc1 : Char.ofNat 27 ∉ lvl)
    (hname : name ≠ []) (hcol : ':' ∉ name) (hnl1 : Char.ofNat 10 ∉ name)
    (hesc2 : Char.ofNat 27 ∉ name) (hnl2 : Char.ofNat 10 ∉ msg)
    (hesc3 : Char.ofNat 27 ∉ msg) :
    (verify_player_name name = true →
      parse_server_stdout t
        ('[' :: (lvl ++ ']' :: ' ' :: ("<chat> ".toList ++ (name ++ ':' :: ' ' :: msg))))
        = Except.ok
        { source := InfoSource.server
          raw_content :=
            '[' :: (lvl ++ ']' :: ' ' :: ("<chat> ".toList ++ (name ++ ':' :: ' ' :: msg)))
          content := msg
          hour := some t.tm_hour
          min := some t.tm_min
          sec := some t.tm_sec
          logging_level := some lvl
          player := some name }) ∧
    (verify_player_name name = false →
      parse_server_stdout t
        ('[' :: (lvl ++ ']' :: ' ' :: ("<chat> ".toList ++ (name ++ ':' :: ' ' :: msg))))
        = Except.ok
        { source := InfoSource.server
          raw_content :=
            '[' :: (lvl ++ ']' :: ' ' :: ("<chat> ".toList ++ (name ++ ':' :: ' ' :: msg)))
          content := "<chat> ".toList ++ (name ++ ':' :: ' ' :: msg)
          hour := some t.tm_hour
          min := some t.tm_min
          sec := some t.tm_sec
          logging_level := some lvl
          player := none }) := by
  have h27 : Char.ofNat 27
      ∉ '[' :: (lvl ++ ']' :: ' ' :: ("<chat> ".toList ++ (name ++ ':' :: ' ' :: msg))) := by
    intro hmem
    simp only [List.mem_cons, List.mem_append] at hmem
    rcases hmem with h | h | h
    · exact absurd h (by decide)
    · exact hesc1 h
    rcases h with h | h | h
    · exact absurd h (by decide)
    · exact absurd h (by decide)
    rcases h with h | h
    · exact absurd h (by decide)
    rcases h with h | h | h
    · exact hesc2 h
    · exact absurd h (by decide)
    rcases h with h | h
    · exact absurd h (by decide)
    · exact hesc3 h
  have hnlR : Char.ofNat 10 ∉ "<chat> ".toList ++ (name ++ ':' :: ' ' :: msg) := by
    intro hmem
    simp only [List.mem_cons, List.mem_append] at hmem
    rcases hmem with h | h
    · exact absurd h (by decide)
    rcases h with h | h | h
    · exact hnl1 h
    · exact absurd h (by decide)
    rcases h with h | h
    · exact absurd h (by decide)
    · exact hnl2 h
  have htag : numericTag
      (' ' :: ("<chat> ".toList ++ (name ++ ':' :: ' ' :: msg))) = none := rfl
  have hml := matchLevelLine_plain lvl
    ("<chat> ".toList ++ (name ++ ':' :: ' ' :: msg)) hlvl hrb hnlR htag
  have hcm := chat_match_shape name msg hname hcol hnl2
  constructor
  · intro hv
    simp only [parse_server_stdout, get_server_stdout_raw_result,
      clean_id h27, content_parse, get_content_parsers, firstParse, hml,
      get_player_message_parsers, playerMsgLoop, hcm, hv, if_true]
  · intro hv
    simp only [parse_server_stdout, get_server_stdout_raw_result,
      clean_id h27, content_parse, get_content_parsers, firstParse, hml,
      get_player_message_parsers, playerMsgLoop, hcm, hv,
      Bool.false_eq_true, if_false]

/-- Witness for C7: the `Alice` chat line with a valid name and an `A!`
chat line whose name fails validation. -/
theorem parse_server_stdout_chat_witness :
    (("INFO".toList : List Char) ≠ [] ∧ ']' ∉ "INFO".toList ∧
      Char.ofNat 27 ∉ "INFO".toList ∧ ("Alice".toList : List Char) ≠ [] ∧
      ':' ∉ "Alice".toList ∧ Char.ofNat 10 ∉ "Alice".toList ∧
      Char.ofNat 27 ∉ "Alice".toList ∧ Char.ofNat 10 ∉ "hello world".toList ∧
      Char.ofNat 27 ∉ "hello world".toList ∧
      verify_player_name "Alice".toList = true ∧
      verify_player_name "A!".toList = false) ∧
    parse_server_stdout ⟨12, 34, 56⟩
      ('[' :: ("INFO".toList ++ ']' :: ' ' ::
        ("<chat> ".toList ++ ("Alice".toList ++ ':' :: ' ' :: "hello world".toList))))
      = Except.ok
      { source := InfoSource.server
        raw_content :=
          '[' :: ("INFO".toList ++ ']' :: ' ' ::
            ("<chat> ".toList ++ ("Alice".toList ++ ':' :: ' ' :: "hello world".toList)))
        content := "hello world".toList
        hour := some 12
        min := some 34
        sec := some 56
        logging_level := some "INFO".toList
        player := some "Alice".toList } ∧
    parse_server_stdout ⟨12, 34, 56⟩
      ('[' :: ("INFO".toList ++ ']' :: ' ' ::
        ("<chat> ".toList ++ ("A!".toList ++ ':' :: ' ' :: "hi".toList))))
      = Except.ok
      { source := InfoSource.server
        raw_content :=
          '[' :: ("INFO".toList ++ ']' :: ' ' ::
            ("<chat> ".toList ++ ("A!".toList ++ ':' :: ' ' :: "hi".toList)))
        content := "<chat> ".toList ++ ("A!".toList ++ ':' :: ' ' :: "hi".toList)
        hour := some 12
        min := some 34
        sec := some 56
        logging_level := some "INFO".toList
        player := none } :=
  ⟨⟨by decide, by decide, by decide, by decide, by decide, by decide, by decide,
    by decide, by decide, by decide, by decide⟩,
    (parse_server_stdout_chat ⟨12, 34, 56⟩ "INFO".toList "Alice".toList
      "hello world".toList (by decide) (by decide) (by decide) (by decide)
      (by decide) (by decide) (by decide) (by decide) (by decide)).1 (by decide),
    (parse_server_stdout_chat ⟨12, 34, 56⟩ "INFO".toList "A!".toList
      "hi".toList (by decide) (by decide) (by decide) (by decide)
      (by decide) (by decide) (by decide) (by decide) (by decide)).2 (by decide)⟩

/-- A character needing no JSON escape serializes to itself. -/
theorem jsonEscapeChar_id (c : Char) (h1 : (c == '"') = false)
    (h2 : (c == '\\') = false) (h3 : decide (c.toNat < 32) = false) :
    jsonEscapeChar c = [c] := by
  have hn : ¬ c.toNat < 32 := of_decide_eq_false h3
  have hne : ∀ d : Char, d.toNat < 32 → (c == d) = false := by
    intro d hd
    cases hb : c == d
    · rfl
    · exact absurd ((eq_of_beq hb) ▸ hd) hn
  simp only [jsonEscapeChar, h1, h2, hne '\n' (by decide), hne '\r' (by decide),
    hne '\t' (by decide), hne (Char.ofNat 8) (by decide),
    hne (Char.ofNat 12) (by decide), hn, Bool.false_eq_true, if_false]

/-- Escaping is the identity on strings without escape-worthy characters. -/
theorem flatMap_escape_id (s : List Char)
    (h : ∀ c ∈ s, (c == '"') = false ∧ (c == '\\') = false ∧
      decide (c.toNat < 32) = false) :
    s.flatMap jsonEscapeChar = s := by
  induction s with
  | nil => rfl
  | cons c r ih =>
    obtain ⟨h1, h2, h3⟩ := h c (List.mem_cons_self c r)
    simp only [List.flatMap_cons, jsonEscapeChar_id c h1 h2 h3,
      List.singleton_append, List.cons.injEq, true_and]
    exact ih (fun x hx => h x (List.mem_cons_of_mem c hx))

/-- C8, counterexample.  The claim calls the serialization of `hi` a
five-character string, but `"hi"` — quote, `h`, `i`, quote — has four
characters. -/
theorem format_message_hi_length :
    (format_message (MessageText.plain "hi".toList)).length = 4 ∧
    ¬ (format_message (MessageText.plain "hi".toList)).length = 5 := by
  refine ⟨by decide, by decide⟩

/-- C8, amended.  A plain message is serialized as a compact JSON string
literal: `format_message` of `hi` is the four-character string `"hi"`, and
in general a plain string with no quote, no backslash and no control
character is emitted between double quotes completely unchanged —
non-ASCII characters pass through rather than becoming escapes, and no
whitespace is inserted. -/
theorem format_message_plain :
    format_message (MessageText.plain "hi".toList) = "\"hi\"".toList ∧
    (format_message (MessageText.plain "hi".toList)).length = 4 ∧
    (∀ s : List Char,
      (∀ c ∈ s, (c == '"') = false ∧ (c == '\\') = false ∧
        decide (c.toNat < 32) = false) →
      format_message (MessageText.plain s) = '"' :: (s ++ ['"'])) := by
  refine ⟨by decide, by decide, ?_⟩
  intro s h
  simp only [format_message, flatMap_escape_id s h, List.cons_append]

/-- Witness for C8: the pass-through clause applied to a string with a
non-ASCII character. -/
theorem format_message_plain_witness :
    (∀ c ∈ "héllo".toList, (c == '"') = false ∧ (c == '\\') = false ∧
      decide (c.toNat < 32) = false) ∧
    format_message (MessageText.plain "héllo".toList)
      = '"' :: ("héllo".toList ++ ['"']) :=
  ⟨by decide, format_message_plain.2.2 "héllo".toList (by decide)⟩

/-- The two-hole `tellraw` template of `get_send_message_command` assembles
by concatenation. -/
theorem substHoles_tellraw (a b : List Char) :
    substHoles "tellraw \x7b\x7d \x7b\x7d".toList [a, b]
      = "tellraw ".toList ++ (a ++ ' ' :: b) := by
  have h1 : substHoles "tellraw \x7b\x7d \x7b\x7d".toList [a, b]
      = 't' :: 'e' :: 'l' :: 'l' :: 'r' :: 'a' :: 'w' :: ' ' ::
        (a ++ ' ' :: (b ++ [])) := rfl
  rw [h1, List.append_nil]
  rfl

/-- C9.  `get_send_message_command` produces exactly
`tellraw <target> <formatted>` — the literal word, the target and the
formatted message joined by single spaces — for every target and message;
`get_broadcast_message_command` is exactly the send command with target
`@a`; and on the plain message `hi` the broadcast command is the literal
`tellraw @a "hi"`. -/
theorem send_broadcast_commands :
    (∀ (target : List Char) (message : MessageText),
      get_send_message_command target message
        = "tellraw ".toList ++ (target ++ ' ' :: format_message message)) ∧
    (∀ message : MessageText,
      get_broadcast_message_command message
        = get_send_message_command "@a".toList message) ∧
    get_broadcast_message_command (MessageText.plain "hi".toList)
      = "tellraw @a \"hi\"".toList := by
  refine ⟨fun target message => substHoles_tellraw _ _, fun message => rfl, ?_⟩
  decide

/-- C10.  Every query over a parsed record — the four extractors and the
three tests — leaves the record it receives completely unchanged: in the
state-passing embedding, each returns its input record in every branch of
its control flow. -/
theorem queries_leave_record_unchanged (info : Info) :
    (parse_player_joined info).2 = info ∧
    (parse_player_left info).2 = info ∧
    (parse_server_version info).2 = info ∧
    (parse_server_address info).2 = info ∧
    (test_server_startup_done info).2 = info ∧
    (test_rcon_started info).2 = info ∧
    (test_server_stopping info).2 = info := by
  refine ⟨?_, ?_, ?_, ?_, rfl, rfl, rfl⟩
  · unfold parse_player_joined
    split
    · rfl
    · split
      · split <;> rfl
      · rfl
  · unfold parse_player_left
    split
    · rfl
    · split
      · split <;> rfl
      · rfl
  · unfold parse_server_version
    split
    · rfl
    · split <;> rfl
  · unfold parse_server_address
    split
    · rfl
    · split <;> rfl

end PumpkinHandler
